import Mathlib

/-!
Verification of the rljson relay server (`src/server.ts`, `src/client.ts`).

The multicast relay core is embedded shallowly:

* `Payload` models a `ConnectorPayload` as seen by the relay: the
  reference id `r` (absent at runtime when the sender supplies none,
  hence `Option String`), the `__origin` stamp, and the opaque
  application data.
* `ServerState` models the mutable state of a `Server` instance: the
  `_clients` map (insertion-ordered list of entries, as a JS `Map`),
  the `_multicastedRefs` seen-set (a JS `Set`, which can also hold the
  `undefined` value produced by reading a missing `r`), and the active
  route listeners (one element per active subscription, carrying the
  socket the subscription is attached to).
* `handleMessage` is the body of the closure registered by
  `_multicastRefs` for a socket `sender`: dedup on `payload.r`,
  mark seen, drop stamped payloads, otherwise emit a stamped clone to
  every registered socket other than the sender.
* `addSocket` models `Server.addSocket`: assign the id
  `client_<size>_<suffix>`, store the socket under that key
  (JS `Map.set`), then `_removeAllListeners` and `_multicastRefs`.
-/

namespace RljsonServer

/-- Relay-level view of a payload arriving on the route: `r` is the
reference id (`payload.r`; `none` when the field is absent at runtime),
`origin` is the `__origin` stamp, `data` stands for all remaining
application fields. -/
structure Payload where
  r : Option String
  origin : Option String
  data : Nat
deriving DecidableEq, Repr

/-- One entry of the `_clients` map: the key (`clientId`, also stamped
onto the socket as `__clientId`) and the socket handle. Sockets are
abstracted as natural numbers; two handles are the same JS object
exactly when the numbers are equal. -/
structure ClientEntry where
  clientId : String
  socket : Nat
deriving DecidableEq, Repr

/-- The relay state: `clients` is the insertion-ordered `_clients` map,
`multicastedRefs` the `_multicastedRefs` seen-set, `listeners` the
multiset of sockets currently holding an active subscription on the
configured route (one element per subscription). -/
structure ServerState where
  clients : List ClientEntry
  multicastedRefs : List (Option String)
  listeners : List Nat
deriving DecidableEq, Repr

/-- A freshly constructed `Server`: no clients, empty seen-set, no
subscriptions. -/
def initialState : ServerState := ⟨[], [], []⟩

/-- `client_${this._clients.size}_${randomSuffix}`. -/
def mkClientId (n : Nat) (suffix : String) : String :=
  "client_" ++ toString n ++ "_" ++ suffix

/-- JS `Map.set`: replace the entry with the given key in place if it
exists, otherwise append at the end (insertion order). -/
def mapSet : List ClientEntry → String → Nat → List ClientEntry
  | [], key, sock => [⟨key, sock⟩]
  | e :: rest, key, sock =>
      if e.clientId = key then ⟨key, sock⟩ :: rest
      else e :: mapSet rest key sock

/-- `Server._removeAllListeners`: every registered socket drops all of
its subscriptions on the route. Subscriptions of sockets not present
in the registry are untouched. -/
def removeAllListeners (clients : List ClientEntry) (listeners : List Nat) :
    List Nat :=
  listeners.filter (fun s => ¬ clients.any (fun e => e.socket = s))

/-- `Server.addSocket` restricted to the relay-relevant effects: mint
the id from the current registry size, store the socket (`Map.set`),
then rewire: `_removeAllListeners` followed by `_multicastRefs`, which
registers exactly one route subscription per registered socket. -/
def addSocket (st : ServerState) (sock : Nat) (suffix : String) : ServerState :=
  let clientId := mkClientId st.clients.length suffix
  let clients1 := mapSet st.clients clientId sock
  { clients := clients1
    multicastedRefs := st.multicastedRefs
    listeners :=
      removeAllListeners clients1 st.listeners
        ++ clients1.map (fun e => e.socket) }

/-- Run a finite sequence of `addSocket` calls; each call supplies the
socket handle and the random id suffix. -/
def runAddSockets (st : ServerState) (calls : List (Nat × String)) :
    ServerState :=
  calls.foldl (fun s c => addSocket s c.1 c.2) st

/-- One `socket.emit(route, message)` performed by the relay. -/
structure Emit where
  target : Nat
  message : Payload
deriving DecidableEq, Repr

/-- The stamped shallow clone built by the forwarding loop: a fresh
object agreeing with the payload on every field, with `__origin`
bound to the forwarder's client id. -/
def forwardedPayload (p : Payload) (originId : String) : Payload :=
  { p with origin := some originId }

/-- The body of the route listener `_multicastRefs` registers for
`sender`: short-circuit when `payload.r` is already in the seen-set,
otherwise add it; drop stamped payloads; otherwise emit a stamped
clone to every registered socket other than the sender (comparison of
sockets is JS object identity). Returns the updated state and the
emits in registry order. -/
def handleMessage (st : ServerState) (sender : ClientEntry) (p : Payload) :
    ServerState × List Emit :=
  if p.r ∈ st.multicastedRefs then (st, [])
  else
    let st1 : ServerState :=
      { st with multicastedRefs := p.r :: st.multicastedRefs }
    match p.origin with
    | some _ => (st1, [])
    | none =>
        (st1,
          (st.clients.filter (fun e => e.socket ≠ sender.socket)).map
            (fun e => ⟨e.socket, forwardedPayload p sender.clientId⟩))

/-- Fold `handleMessage` over a list of (sender, payload) deliveries,
keeping only the state. -/
def runHandles (st : ServerState) (msgs : List (ClientEntry × Payload)) :
    ServerState :=
  msgs.foldl (fun s m => (handleMessage s m.1 m.2).1) st

/-!
The `Client` node (`src/client.ts`). Only the parts the storage
precondition depends on are embedded: the optional `_db` handle, the
tables created through it, and the datasets imported through it.
Table configurations and Rljson datasets are abstracted as strings.
-/

/-- The external `Db` handle, reduced to the effects `Client` can
perform on it: created tables and imported datasets, in order. -/
structure DbState where
  tables : List String
  imported : List String
deriving DecidableEq, Repr

/-- A `Client` as far as the storage precondition is concerned:
`db` is the optional `_db` field, `none` until `addIoMultiIo` has
completed. -/
structure ClientNode where
  db : Option DbState
deriving DecidableEq, Repr

/-- `new Client(cakeKey, socket)`: `_db` is unset. -/
def newClientNode : ClientNode := ⟨none⟩

/-- `Client.addIoMultiIo`: rebuilds the transport surface and binds
`_db` — `new Db(io)` on first call, `db.clone(io)` (content kept)
afterwards. Afterwards `db` is always set. -/
def addIoMultiIo (c : ClientNode) : ClientNode :=
  match c.db with
  | none => ⟨some ⟨[], []⟩⟩
  | some d => ⟨some d⟩

/-- `Client.createTables`: throws `Db not initialized` before any
table creation when `_db` is unset; otherwise creates the tables
without insert history first, then the ones with insert history. The
error result carries no mutated state: the throw happens before the
first `createTable` call. -/
def createTables (c : ClientNode)
    (withoutInsertHistory withInsertHistory : List String) :
    Except String ClientNode :=
  match c.db with
  | none => Except.error "Db not initialized"
  | some d =>
      Except.ok
        ⟨some
          { d with
            tables :=
              d.tables ++ withoutInsertHistory ++ withInsertHistory }⟩

/-- `Client.import`: throws `Db not initialized` before any work when
`_db` is unset; otherwise hands the dataset to `db.core.import`. -/
def importData (c : ClientNode) (data : String) : Except String ClientNode :=
  match c.db with
  | none => Except.error "Db not initialized"
  | some d => Except.ok ⟨some { d with imported := d.imported ++ [data] }⟩

/-!
Concrete instances used to exercise the theorems: a relay that has
registered two distinct sockets (the state produced by
`runAddSockets initialState [(0, "aaa"), (1, "bbb")]`), and a few
payloads.
-/

/-- The registry entry of the first added socket. -/
def exampleEntryA : ClientEntry := ⟨"client_0_aaa", 0⟩

/-- The registry entry of the second added socket. -/
def exampleEntryB : ClientEntry := ⟨"client_1_bbb", 1⟩

/-- A two-client relay: both sockets registered, seen-set empty, one
route subscription per socket. -/
def exampleState : ServerState :=
  ⟨[exampleEntryA, exampleEntryB], [], [0, 1]⟩

/-- A fresh unstamped payload carrying a reference id. -/
def examplePayload : Payload := ⟨some "ref-1", none, 123⟩

/-- An already-stamped payload. -/
def exampleStamped : Payload := ⟨some "ref-2", some "client_9_zzz", 7⟩

/-- A payload with neither a reference id nor a stamp. -/
def noRefPayload : Payload := ⟨none, none, 5⟩

/-- A stamped payload whose reference id is not yet seen. -/
def stampedFresh : Payload := ⟨some "ref-9", some "client_1_bbb", 3⟩

/-- An unstamped publish reusing the reference id of `stampedFresh`. -/
def unstampedNine : Payload := ⟨some "ref-9", none, 4⟩

/-! Basic facts about a single listener invocation. -/

theorem handleMessage_of_seen (st : ServerState) (sender : ClientEntry)
    (p : Payload) (h : p.r ∈ st.multicastedRefs) :
    handleMessage st sender p = (st, []) := by
  simp [handleMessage, h]

theorem handleMessage_fresh_stamped (st : ServerState) (sender : ClientEntry)
    (p : Payload) (o : String) (h1 : p.r ∉ st.multicastedRefs)
    (h2 : p.origin = some o) :
    handleMessage st sender p =
      ({ st with multicastedRefs := p.r :: st.multicastedRefs }, []) := by
  simp [handleMessage, h1, h2]

theorem handleMessage_fresh_unstamped (st : ServerState) (sender : ClientEntry)
    (p : Payload) (h1 : p.r ∉ st.multicastedRefs) (h2 : p.origin = none) :
    handleMessage st sender p =
      ({ st with multicastedRefs := p.r :: st.multicastedRefs },
        (st.clients.filter (fun e => e.socket ≠ sender.socket)).map
          (fun e => ⟨e.socket, forwardedPayload p sender.clientId⟩)) := by
  simp [handleMessage, h1, h2]

/-- Handling a message never changes the registry. -/
theorem handleMessage_clients (st : ServerState) (sender : ClientEntry)
    (p : Payload) : (handleMessage st sender p).1.clients = st.clients := by
  rw [handleMessage]
  split
  · rfl
  · cases hp : p.origin <;> simp

/-- Handling a message never changes the active subscriptions. -/
theorem handleMessage_listeners (st : ServerState) (sender : ClientEntry)
    (p : Payload) : (handleMessage st sender p).1.listeners = st.listeners := by
  rw [handleMessage]
  split
  · rfl
  · cases hp : p.origin <;> simp

/-- The seen-set only grows. -/
theorem handleMessage_refs_mono (st : ServerState) (sender : ClientEntry)
    (p : Payload) (x : Option String) (h : x ∈ st.multicastedRefs) :
    x ∈ (handleMessage st sender p).1.multicastedRefs := by
  rw [handleMessage]
  split
  · exact h
  · cases hp : p.origin <;> simp [h]

/-- After handling, the payload's reference id is in the seen-set
(either it already was, or the listener just added it). -/
theorem handleMessage_refs_add (st : ServerState) (sender : ClientEntry)
    (p : Payload) : p.r ∈ (handleMessage st sender p).1.multicastedRefs := by
  rw [handleMessage]
  split
  · assumption
  · cases hp : p.origin <;> simp

/-- The seen-set after handling is the old one, possibly with the
payload's reference id consed on. -/
theorem handleMessage_refs_cases (st : ServerState) (sender : ClientEntry)
    (p : Payload) :
    (handleMessage st sender p).1.multicastedRefs = st.multicastedRefs ∨
      (handleMessage st sender p).1.multicastedRefs
        = p.r :: st.multicastedRefs := by
  rw [handleMessage]
  split
  · exact Or.inl rfl
  · cases hp : p.origin <;> simp

/-- Every emit of a single handling targets a socket other than the
sender's (the loop skips `socketA` by object identity). -/
theorem handleMessage_target_ne (st : ServerState) (sender : ClientEntry)
    (p : Payload) (em : Emit) (h : em ∈ (handleMessage st sender p).2) :
    em.target ≠ sender.socket := by
  rw [handleMessage] at h
  split at h
  · simp at h
  · revert h
    cases hp : p.origin <;> simp
    intro e he hne hm
    rw [← hm]
    exact hne

/-- Every emitted message of a single handling is the stamped shallow
clone of the incoming payload. -/
theorem handleMessage_message_eq (st : ServerState) (sender : ClientEntry)
    (p : Payload) (em : Emit) (h : em ∈ (handleMessage st sender p).2) :
    em.message = forwardedPayload p sender.clientId := by
  rw [handleMessage] at h
  split at h
  · simp at h
  · revert h
    cases hp : p.origin <;> simp
    intro e he hne hm
    rw [← hm]

/-- The seen-set is monotone along any sequence of deliveries. -/
theorem runHandles_refs_mono (msgs : List (ClientEntry × Payload))
    (st : ServerState) (x : Option String) (h : x ∈ st.multicastedRefs) :
    x ∈ (runHandles st msgs).multicastedRefs := by
  induction msgs generalizing st with
  | nil => exact h
  | cons m rest ih =>
      exact ih _ (handleMessage_refs_mono st m.1 m.2 x h)

/-! Counting emits of the broadcast loop. -/

theorem map_socket_filter (l : List ClientEntry) (a : Nat) :
    (l.filter (fun e => e.socket ≠ a)).map (fun e => e.socket)
      = (l.map (fun e => e.socket)).filter (fun x => x ≠ a) := by
  induction l with
  | nil => rfl
  | cons e rest ih =>
      by_cases h : e.socket = a <;> simpa [h] using ih

/-- Dropping the one occurrence of a member from a duplicate-free list
shortens it by exactly one. -/
theorem length_filter_ne_aux (a : Nat) (s : List Nat) (hnd : s.Nodup)
    (ha : a ∈ s) :
    (s.filter (fun x => x ≠ a)).length + 1 = s.length := by
  induction s with
  | nil => cases ha
  | cons x rest ih =>
      rcases List.mem_cons.mp ha with h | h
      · subst h
        have hnot : ∀ y ∈ rest, ¬ y = a := fun y hy hya =>
          (List.nodup_cons.mp hnd).1 (hya ▸ hy)
        simp [List.filter_cons]
        exact hnot
      · have hx : x ≠ a := by
          intro hxa
          exact (List.nodup_cons.mp hnd).1 (hxa ▸ h)
        have hr := ih (List.nodup_cons.mp hnd).2 h
        simp only [List.filter_cons, hx, decide_not, List.length_cons]
        simp only [ne_eq, decide_not] at hr
        simp [hx]
        omega

/-- The emit list of a fresh unstamped handling, in closed form. -/
theorem handleMessage_snd_fresh_unstamped (st : ServerState)
    (sender : ClientEntry) (p : Payload) (h1 : p.r ∉ st.multicastedRefs)
    (h2 : p.origin = none) :
    (handleMessage st sender p).2
      = (st.clients.filter (fun e => e.socket ≠ sender.socket)).map
          (fun e => ⟨e.socket, forwardedPayload p sender.clientId⟩) := by
  rw [handleMessage_fresh_unstamped st sender p h1 h2]

/-- In a registry whose sockets are pairwise distinct, the broadcast
loop triggered by a registered sender emits exactly once to every
other registered socket. -/
theorem count_emit_targets (st : ServerState) (sender : ClientEntry)
    (p : Payload) (h1 : p.r ∉ st.multicastedRefs) (h2 : p.origin = none)
    (hnd : (st.clients.map (fun e => e.socket)).Nodup)
    (b : ClientEntry) (hb : b ∈ st.clients) (hba : b.socket ≠ sender.socket) :
    ((handleMessage st sender p).2.map (fun em => em.target)).count b.socket
      = 1 := by
  rw [handleMessage_snd_fresh_unstamped st sender p h1 h2, List.map_map]
  have hcomp :
      ((fun em : Emit => em.target) ∘
          (fun e : ClientEntry =>
            (⟨e.socket, forwardedPayload p sender.clientId⟩ : Emit)))
        = fun e : ClientEntry => e.socket := rfl
  rw [hcomp, map_socket_filter]
  exact
    List.count_eq_one_of_mem (hnd.filter _)
      (List.mem_filter.mpr
        ⟨List.mem_map_of_mem _ hb, by simpa using hba⟩)

/-- The number of emits of a fresh unstamped broadcast from a
registered sender is one less than the registry size. -/
theorem length_emits (st : ServerState) (sender : ClientEntry)
    (p : Payload) (h1 : p.r ∉ st.multicastedRefs) (h2 : p.origin = none)
    (hnd : (st.clients.map (fun e => e.socket)).Nodup)
    (hmem : sender ∈ st.clients) :
    (handleMessage st sender p).2.length = st.clients.length - 1 := by
  rw [handleMessage_snd_fresh_unstamped st sender p h1 h2, List.length_map]
  have h3 :
      (st.clients.filter (fun e => e.socket ≠ sender.socket)).length
        = ((st.clients.map (fun e => e.socket)).filter
            (fun x => x ≠ sender.socket)).length := by
    rw [← map_socket_filter, List.length_map]
  rw [h3]
  have h4 :=
    length_filter_ne_aux sender.socket (st.clients.map (fun e => e.socket))
      hnd (List.mem_map_of_mem _ hmem)
  rw [List.length_map] at h4
  omega

/-! The registry under `Map.set` and the rewiring discipline. -/

theorem mem_mapSet (m : List ClientEntry) (key : String) (sock : Nat)
    (e2 : ClientEntry) (h : e2 ∈ mapSet m key sock) :
    e2 ∈ m ∨ e2 = ⟨key, sock⟩ := by
  induction m with
  | nil => simpa [mapSet] using h
  | cons e rest ih =>
      rw [mapSet] at h
      by_cases hk : e.clientId = key
      · rw [if_pos hk] at h
        rcases List.mem_cons.mp h with h | h
        · exact Or.inr h
        · exact Or.inl (List.mem_cons_of_mem _ h)
      · rw [if_neg hk] at h
        rcases List.mem_cons.mp h with h | h
        · exact Or.inl (h ▸ List.mem_cons_self _ _)
        · rcases ih h with h2 | h2
          · exact Or.inl (List.mem_cons_of_mem _ h2)
          · exact Or.inr h2

theorem mem_sockets_mapSet (m : List ClientEntry) (key : String) (sock : Nat)
    (x : Nat) (h : x ∈ (mapSet m key sock).map (fun e => e.socket)) :
    x ∈ m.map (fun e => e.socket) ∨ x = sock := by
  rcases List.mem_map.mp h with ⟨e2, he2, hx⟩
  rcases mem_mapSet m key sock e2 he2 with h2 | h2
  · exact Or.inl (hx ▸ List.mem_map_of_mem _ h2)
  · subst h2
    exact Or.inr hx.symm

/-- `Map.set` with a socket not yet in the registry keeps the sockets
pairwise distinct. -/
theorem mapSet_sockets_nodup (m : List ClientEntry) (key : String)
    (sock : Nat) (hsock : (m.map (fun e => e.socket)).Nodup)
    (hfresh : sock ∉ m.map (fun e => e.socket)) :
    ((mapSet m key sock).map (fun e => e.socket)).Nodup := by
  induction m with
  | nil => simp [mapSet]
  | cons e rest ih =>
      simp only [List.map_cons, List.nodup_cons] at hsock
      simp only [List.map_cons, List.mem_cons] at hfresh
      push_neg at hfresh
      rw [mapSet]
      by_cases hk : e.clientId = key
      · rw [if_pos hk]
        simp only [List.map_cons, List.nodup_cons]
        exact ⟨hfresh.2, hsock.2⟩
      · rw [if_neg hk]
        simp only [List.map_cons, List.nodup_cons]
        refine ⟨?_, ih hsock.2 hfresh.2⟩
        intro hmem
        rcases mem_sockets_mapSet rest key sock _ hmem with h2 | h2
        · exact hsock.1 h2
        · exact hfresh.1 h2.symm

/-- `Map.set` keeps the keys pairwise distinct: replacing in place
keeps the key set, appending adds a key that was absent. -/
theorem mapSet_ids_nodup (m : List ClientEntry) (key : String) (sock : Nat)
    (h : (m.map (fun e => e.clientId)).Nodup) :
    ((mapSet m key sock).map (fun e => e.clientId)).Nodup := by
  induction m with
  | nil => simp [mapSet]
  | cons e rest ih =>
      simp only [List.map_cons, List.nodup_cons] at h
      rw [mapSet]
      by_cases hk : e.clientId = key
      · rw [if_pos hk]
        simp only [List.map_cons, List.nodup_cons]
        exact ⟨hk ▸ h.1, h.2⟩
      · rw [if_neg hk]
        simp only [List.map_cons, List.nodup_cons]
        refine ⟨?_, ih h.2⟩
        intro hmem
        rcases List.mem_map.mp hmem with ⟨e2, he2, hx⟩
        rcases mem_mapSet rest key sock e2 he2 with h2 | h2
        · exact h.1 (hx ▸ List.mem_map_of_mem _ h2)
        · exact hk (by rw [h2] at hx; exact hx.symm ▸ rfl)

/-- `addSocket` never removes a listener of a registered socket after
rewiring: the teardown part holds no registered socket. -/
theorem count_removeAllListeners (clients : List ClientEntry)
    (listeners : List Nat) (e : ClientEntry) (he : e ∈ clients) :
    (removeAllListeners clients listeners).count e.socket = 0 := by
  apply List.count_eq_zero.mpr
  intro hmem
  rw [removeAllListeners] at hmem
  rcases List.mem_filter.mp hmem with ⟨_, hp⟩
  simp only [decide_eq_true_eq, List.any_eq_true] at hp
  exact hp ⟨e, he, by simp⟩

/-- Right after an `addSocket`, if the registry sockets are pairwise
distinct, every registered socket holds exactly one subscription on
the route: the teardown removed everything it had, the rewiring added
exactly one. -/
theorem addSocket_count_listener (st : ServerState) (sock : Nat)
    (suffix : String)
    (hnd : ((addSocket st sock suffix).clients.map (fun e => e.socket)).Nodup) :
    ∀ e ∈ (addSocket st sock suffix).clients,
      ((addSocket st sock suffix).listeners).count e.socket = 1 := by
  intro e he
  have hl : (addSocket st sock suffix).listeners
      = removeAllListeners (addSocket st sock suffix).clients st.listeners
          ++ (addSocket st sock suffix).clients.map (fun x => x.socket) := rfl
  rw [hl, List.count_append, count_removeAllListeners _ _ _ he,
    List.count_eq_one_of_mem hnd (List.mem_map_of_mem _ he)]

/-- Along any run with pairwise distinct fresh sockets, the registry
sockets stay pairwise distinct, and every registry socket came from
the initial state or one of the calls. -/
theorem runAddSockets_sockets_nodup (calls : List (Nat × String))
    (st : ServerState)
    (hcalls : (calls.map Prod.fst).Nodup)
    (hst : (st.clients.map (fun e => e.socket)).Nodup)
    (hdisj : ∀ c ∈ calls, c.1 ∉ st.clients.map (fun e => e.socket)) :
    ((runAddSockets st calls).clients.map (fun e => e.socket)).Nodup ∧
      ∀ x ∈ (runAddSockets st calls).clients.map (fun e => e.socket),
        x ∈ st.clients.map (fun e => e.socket) ∨ x ∈ calls.map Prod.fst := by
  induction calls generalizing st with
  | nil => exact ⟨hst, fun x hx => Or.inl hx⟩
  | cons c rest ih =>
      simp only [List.map_cons, List.nodup_cons] at hcalls
      have hfresh : c.1 ∉ st.clients.map (fun e => e.socket) :=
        hdisj c (List.mem_cons_self _ _)
      have hst1 :
          ((addSocket st c.1 c.2).clients.map (fun e => e.socket)).Nodup :=
        mapSet_sockets_nodup _ _ _ hst hfresh
      have hsub : ∀ x ∈ (addSocket st c.1 c.2).clients.map
          (fun e => e.socket),
          x ∈ st.clients.map (fun e => e.socket) ∨ x = c.1 :=
        fun x hx => mem_sockets_mapSet _ _ _ x hx
      have hdisj1 : ∀ d ∈ rest,
          d.1 ∉ (addSocket st c.1 c.2).clients.map (fun e => e.socket) := by
        intro d hd hmem
        rcases hsub d.1 hmem with h2 | h2
        · exact hdisj d (List.mem_cons_of_mem _ hd) h2
        · exact hcalls.1 (h2 ▸ List.mem_map_of_mem _ hd)
      rcases ih (addSocket st c.1 c.2) hcalls.2 hst1 hdisj1 with ⟨hn, hmem⟩
      refine ⟨hn, ?_⟩
      intro x hx
      rcases hmem x hx with h2 | h2
      · rcases hsub x h2 with h3 | h3
        · exact Or.inl h3
        · exact Or.inr (h3 ▸ List.mem_cons_self _ _)
      · exact Or.inr (List.mem_cons_of_mem _ h2)

/-- The registry keys stay pairwise distinct along any run. -/
theorem runAddSockets_ids_nodup (calls : List (Nat × String))
    (st : ServerState)
    (hst : (st.clients.map (fun e => e.clientId)).Nodup) :
    ((runAddSockets st calls).clients.map (fun e => e.clientId)).Nodup := by
  induction calls generalizing st with
  | nil => exact hst
  | cons c rest ih => exact ih _ (mapSet_ids_nodup _ _ _ hst)

/-! The claims. -/

/-- C1: in a relay with N ≥ 2 registered, pairwise distinct sockets, a
fresh payload (reference id unseen, no `__origin` stamp) received on
the route from a registered socket is emitted exactly once to each of
the other N − 1 registered sockets, and to nobody else. -/
theorem claim_full_fanout (st : ServerState) (sender : ClientEntry)
    (p : Payload) (_hN : 2 ≤ st.clients.length)
    (hnd : (st.clients.map (fun e => e.socket)).Nodup)
    (hsender : sender ∈ st.clients)
    (hfresh : p.r ∉ st.multicastedRefs)
    (hstamp : p.origin = none) :
    (∀ b ∈ st.clients, b.socket ≠ sender.socket →
        ((handleMessage st sender p).2.map (fun em => em.target)).count
          b.socket = 1) ∧
      (handleMessage st sender p).2.length = st.clients.length - 1 :=
  ⟨fun b hb hba => count_emit_targets st sender p hfresh hstamp hnd b hb hba,
    length_emits st sender p hfresh hstamp hnd hsender⟩

theorem claim_full_fanout_witness :
    ((handleMessage exampleState exampleEntryA examplePayload).2.map
        (fun em => em.target)).count exampleEntryB.socket = 1 ∧
      (handleMessage exampleState exampleEntryA examplePayload).2.length
        = exampleState.clients.length - 1 := by
  have h :=
    claim_full_fanout exampleState exampleEntryA examplePayload (by decide)
      (by decide) (by decide) (by decide) (by decide)
  exact ⟨h.1 exampleEntryB (by decide) (by decide), h.2⟩

/-- C2: the relay never emits a payload back to the socket it received
it from — the broadcast loop skips the sender by object identity. -/
theorem claim_no_self_delivery (st : ServerState) (sender : ClientEntry)
    (p : Payload) (_hN : 2 ≤ st.clients.length)
    (_hsender : sender ∈ st.clients) :
    ∀ em ∈ (handleMessage st sender p).2, em.target ≠ sender.socket :=
  fun em h => handleMessage_target_ne st sender p em h

theorem claim_no_self_delivery_witness :
    ((⟨1, forwardedPayload examplePayload "client_0_aaa"⟩ : Emit) ∈
        (handleMessage exampleState exampleEntryA examplePayload).2) ∧
      (1 : Nat) ≠ exampleEntryA.socket :=
  ⟨by decide,
    claim_no_self_delivery exampleState exampleEntryA examplePayload
      (by decide) (by decide)
      (⟨1, forwardedPayload examplePayload "client_0_aaa"⟩ : Emit)
      (by decide)⟩

/-- C3: a payload carrying an `__origin` stamp is terminal: handling
it in any registered socket's route listener emits nothing to any
socket. -/
theorem claim_stamped_terminal (st : ServerState) (sender : ClientEntry)
    (p : Payload) (o : String) (h : p.origin = some o) :
    (handleMessage st sender p).2 = [] := by
  by_cases hm : p.r ∈ st.multicastedRefs
  · rw [handleMessage_of_seen st sender p hm]
  · rw [handleMessage_fresh_stamped st sender p o hm h]

theorem claim_stamped_terminal_witness :
    (handleMessage exampleState exampleEntryA exampleStamped).2 = [] :=
  claim_stamped_terminal exampleState exampleEntryA exampleStamped
    "client_9_zzz" (by decide)

/-- C4: two payloads with the same reference id received in sequence:
after the first one is handled the seen-set contains the id, and the
second one short-circuits with zero emits. -/
theorem claim_reference_idempotent (st : ServerState) (s1 s2 : ClientEntry)
    (p1 p2 : Payload) (ref : String) (h1 : p1.r = some ref)
    (h2 : p2.r = some ref) :
    some ref ∈ (handleMessage st s1 p1).1.multicastedRefs ∧
      (handleMessage (handleMessage st s1 p1).1 s2 p2).2 = [] := by
  have hmem : some ref ∈ (handleMessage st s1 p1).1.multicastedRefs :=
    h1 ▸ handleMessage_refs_add st s1 p1
  refine ⟨hmem, ?_⟩
  rw [handleMessage_of_seen _ s2 p2 (by rw [h2]; exact hmem)]

theorem claim_reference_idempotent_witness :
    some "ref-1" ∈
        (handleMessage exampleState exampleEntryA
          examplePayload).1.multicastedRefs ∧
      (handleMessage (handleMessage exampleState exampleEntryA
          examplePayload).1 exampleEntryB examplePayload).2 = [] :=
  claim_reference_idempotent exampleState exampleEntryA exampleEntryB
    examplePayload examplePayload "ref-1" (by decide) (by decide)

/-- C5 counterexample: a payload with neither an `__origin` stamp nor
a reference id is NOT always relayed. The listener reads `payload.r`
(the undefined value) and stores it in the seen-set, so the second
such payload is dropped with zero emits even though a second
registered socket is present. -/
theorem claim_no_ref_always_fresh_counterexample :
    (handleMessage
        (handleMessage exampleState exampleEntryA noRefPayload).1
        exampleEntryA noRefPayload).2 = [] ∧
      2 ≤ exampleState.clients.length ∧
      noRefPayload.r = none ∧ noRefPayload.origin = none := by
  decide

/-- C5 amended: the first stamp-less, reference-id-less payload is
relayed exactly once to each of the other registered sockets, but
handling it records the missing reference id (the undefined value
read from `payload.r`) in the seen-set, which only grows — so every
later stamp-less, reference-id-less payload, after any intervening
deliveries, short-circuits with zero emits. -/
theorem claim_no_ref_amended (st : ServerState) (s1 s2 : ClientEntry)
    (p1 p2 : Payload) (hr1 : p1.r = none) (ho1 : p1.origin = none)
    (hfresh : (none : Option String) ∉ st.multicastedRefs)
    (hnd : (st.clients.map (fun e => e.socket)).Nodup)
    (hs1 : s1 ∈ st.clients) (msgs : List (ClientEntry × Payload))
    (hr2 : p2.r = none) (_ho2 : p2.origin = none) :
    (∀ b ∈ st.clients, b.socket ≠ s1.socket →
        ((handleMessage st s1 p1).2.map (fun em => em.target)).count
          b.socket = 1) ∧
      (handleMessage st s1 p1).2.length = st.clients.length - 1 ∧
      (handleMessage (runHandles (handleMessage st s1 p1).1 msgs) s2 p2).2
        = [] := by
  have hfr : p1.r ∉ st.multicastedRefs := by
    rw [hr1]
    exact hfresh
  refine
    ⟨fun b hb hba => count_emit_targets st s1 p1 hfr ho1 hnd b hb hba,
      length_emits st s1 p1 hfr ho1 hnd hs1, ?_⟩
  have hmem : p2.r ∈ ServerState.multicastedRefs
      (runHandles (handleMessage st s1 p1).1 msgs) := by
    rw [hr2]
    refine runHandles_refs_mono msgs _ _ ?_
    rw [← hr1]
    exact handleMessage_refs_add st s1 p1
  rw [handleMessage_of_seen _ s2 p2 hmem]

theorem claim_no_ref_amended_witness :
    (((handleMessage exampleState exampleEntryA noRefPayload).2.map
        (fun em => em.target)).count exampleEntryB.socket = 1) ∧
      (handleMessage exampleState exampleEntryA noRefPayload).2.length
        = exampleState.clients.length - 1 ∧
      (handleMessage
          (runHandles
            (handleMessage exampleState exampleEntryA noRefPayload).1
            [(exampleEntryB, examplePayload)])
          exampleEntryA noRefPayload).2 = [] := by
  have h :=
    claim_no_ref_amended exampleState exampleEntryA exampleEntryA
      noRefPayload noRefPayload (by decide) (by decide) (by decide)
      (by decide) (by decide) [(exampleEntryB, examplePayload)] (by decide)
      (by decide)
  exact ⟨h.1 exampleEntryB (by decide) (by decide), h.2.1, h.2.2⟩

/-- After any run, every registered socket's subscription count on the
route is exactly one (the last call's teardown-then-rewire run did
it). -/
theorem runAddSockets_count_listener (calls : List (Nat × String))
    (hnd : (calls.map Prod.fst).Nodup) :
    ∀ e ∈ (runAddSockets initialState calls).clients,
      ((runAddSockets initialState calls).listeners).count e.socket = 1 := by
  rcases List.eq_nil_or_concat calls with hc | ⟨init, last, hc⟩
  · subst hc
    intro e he
    cases he
  · subst hc
    simp only [List.concat_eq_append] at hnd ⊢
    have hrun : runAddSockets initialState (init ++ [last])
        = addSocket (runAddSockets initialState init) last.1 last.2 := by
      rw [runAddSockets, List.foldl_append]
      rfl
    have h :=
      runAddSockets_sockets_nodup (init ++ [last]) initialState hnd
        (by simp [initialState]) (by simp [initialState])
    rw [hrun] at h ⊢
    exact addSocket_count_listener _ _ _ h.1

/-- C6: after any sequence of `addSocket` calls with pairwise distinct
sockets, every registered socket holds exactly one active
subscription on the configured route — each call tears down all route
listeners of every registered socket and then registers exactly one
per socket, so no duplicates accumulate and one fresh publish yields
exactly N − 1 broadcasts for N registered sockets, never more. -/
theorem claim_single_subscription (calls : List (Nat × String))
    (hnd : (calls.map Prod.fst).Nodup) :
    ∀ e ∈ (runAddSockets initialState calls).clients,
      ((runAddSockets initialState calls).listeners).count e.socket = 1 ∧
        ∀ p : Payload,
          p.r ∉ (runAddSockets initialState calls).multicastedRefs →
          p.origin = none →
          (handleMessage (runAddSockets initialState calls) e p).2.length
            = (runAddSockets initialState calls).clients.length - 1 := by
  have hsnd :=
    runAddSockets_sockets_nodup calls initialState hnd
      (by simp [initialState]) (by simp [initialState])
  intro e he
  refine ⟨runAddSockets_count_listener calls hnd e he, ?_⟩
  intro p hfresh ho
  exact length_emits _ e p hfresh ho hsnd.1 he

theorem claim_single_subscription_witness :
    ((exampleEntryA ∈
        (runAddSockets initialState [(0, "aaa"), (1, "bbb")]).clients) ∧
      ((runAddSockets initialState
          [(0, "aaa"), (1, "bbb")]).listeners).count exampleEntryA.socket
        = 1 ∧
      (handleMessage (runAddSockets initialState [(0, "aaa"), (1, "bbb")])
          exampleEntryA examplePayload).2.length
        = (runAddSockets initialState
            [(0, "aaa"), (1, "bbb")]).clients.length - 1) := by
  have h :=
    claim_single_subscription [(0, "aaa"), (1, "bbb")] (by decide)
      exampleEntryA (by decide)
  exact ⟨by decide, h.1, h.2 examplePayload (by decide) (by decide)⟩

/-- C7: in every state reachable by a finite sequence of `addSocket`
calls, the client identities held by the registry are pairwise
distinct. -/
theorem claim_registry_ids_distinct (calls : List (Nat × String)) :
    ((runAddSockets initialState calls).clients.map
      (fun e => e.clientId)).Nodup :=
  runAddSockets_ids_nodup calls initialState (by simp [initialState])

/-- C8: before `addIoMultiIo` has completed (`db` unset), create
tables and the data intake both throw `Db not initialized` — the
error result carries no new state, so nothing was created or
imported; after `addIoMultiIo` neither operation produces that
precondition error. -/
theorem claim_db_precondition (c : ClientNode) (w wi : List String)
    (d : String) :
    (c.db = none →
        createTables c w wi = Except.error "Db not initialized" ∧
          importData c d = Except.error "Db not initialized") ∧
      createTables (addIoMultiIo c) w wi
          ≠ Except.error "Db not initialized" ∧
        importData (addIoMultiIo c) d
          ≠ Except.error "Db not initialized" := by
  refine ⟨?_, ?_, ?_⟩
  · intro h
    exact ⟨by simp [createTables, h], by simp [importData, h]⟩
  · cases hc : c.db <;> simp [addIoMultiIo, createTables, hc]
  · cases hc : c.db <;> simp [addIoMultiIo, importData, hc]

theorem claim_db_precondition_witness :
    (newClientNode.db = none ∧
        createTables newClientNode ["t1"] ["t2"]
          = Except.error "Db not initialized") ∧
      createTables (addIoMultiIo newClientNode) ["t1"] ["t2"]
        ≠ Except.error "Db not initialized" :=
  ⟨⟨rfl,
      ((claim_db_precondition newClientNode ["t1"] ["t2"] "data").1 rfl).1⟩,
    (claim_db_precondition newClientNode ["t1"] ["t2"] "data").2.1⟩

/-- C9: every emitted message is the shallow clone of the incoming
payload with `__origin` bound to the forwarding socket's client id,
agreeing with the payload on every other field; handling never
touches the registry or the subscriptions, and the seen-set at most
gains the payload's reference id. -/
theorem claim_forward_frame (st : ServerState) (sender : ClientEntry)
    (p : Payload) :
    (∀ em ∈ (handleMessage st sender p).2,
        em.message = forwardedPayload p sender.clientId ∧
          em.message.r = p.r ∧ em.message.data = p.data ∧
          em.message.origin = some sender.clientId) ∧
      (handleMessage st sender p).1.clients = st.clients ∧
      (handleMessage st sender p).1.listeners = st.listeners ∧
      ((handleMessage st sender p).1.multicastedRefs = st.multicastedRefs ∨
        (handleMessage st sender p).1.multicastedRefs
          = p.r :: st.multicastedRefs) := by
  refine
    ⟨?_, handleMessage_clients st sender p,
      handleMessage_listeners st sender p,
      handleMessage_refs_cases st sender p⟩
  intro em hem
  have h := handleMessage_message_eq st sender p em hem
  exact
    ⟨h, by simp [h, forwardedPayload], by simp [h, forwardedPayload],
      by simp [h, forwardedPayload]⟩

theorem claim_forward_frame_witness :
    ((⟨1, forwardedPayload examplePayload "client_0_aaa"⟩ : Emit) ∈
        (handleMessage exampleState exampleEntryA examplePayload).2) ∧
      (⟨1, forwardedPayload examplePayload "client_0_aaa"⟩ : Emit).message
          = forwardedPayload examplePayload exampleEntryA.clientId ∧
      (handleMessage exampleState exampleEntryA examplePayload).1.clients
        = exampleState.clients :=
  ⟨by decide,
    ((claim_forward_frame exampleState exampleEntryA examplePayload).1 _
      (by decide)).1,
    (claim_forward_frame exampleState exampleEntryA examplePayload).2.1⟩

/-- C10: a stamped payload whose reference id is unseen is not
forwarded, yet its reference id is added to the seen-set (the dedup
mark precedes the origin check); hence a later fresh unstamped
publish with the same reference id — after any intervening deliveries
— is dropped with zero emits. -/
theorem claim_stamped_marks_seen (st : ServerState) (s1 : ClientEntry)
    (p : Payload) (o ref : String) (ho : p.origin = some o)
    (hr : p.r = some ref) (hfresh : p.r ∉ st.multicastedRefs)
    (msgs : List (ClientEntry × Payload)) (s2 : ClientEntry) (q : Payload)
    (hq : q.r = some ref) (_hqo : q.origin = none) :
    (handleMessage st s1 p).2 = [] ∧
      some ref ∈ (handleMessage st s1 p).1.multicastedRefs ∧
      (handleMessage (runHandles (handleMessage st s1 p).1 msgs) s2 q).2
        = [] := by
  have h1 := handleMessage_fresh_stamped st s1 p o hfresh ho
  refine ⟨by rw [h1], hr ▸ handleMessage_refs_add st s1 p, ?_⟩
  have hm2 : q.r ∈ ServerState.multicastedRefs
      (runHandles (handleMessage st s1 p).1 msgs) := by
    rw [hq]
    exact runHandles_refs_mono msgs _ _ (hr ▸ handleMessage_refs_add st s1 p)
  rw [handleMessage_of_seen _ s2 q hm2]

theorem claim_stamped_marks_seen_witness :
    (handleMessage exampleState exampleEntryA stampedFresh).2 = [] ∧
      some "ref-9" ∈
        (handleMessage exampleState exampleEntryA
          stampedFresh).1.multicastedRefs ∧
      (handleMessage
          (runHandles
            (handleMessage exampleState exampleEntryA stampedFresh).1 [])
          exampleEntryB unstampedNine).2 = [] :=
  claim_stamped_marks_seen exampleState exampleEntryA stampedFresh
    "client_1_bbb" "ref-9" (by decide) (by decide) (by decide) []
    exampleEntryB unstampedNine (by decide) (by decide)

end RljsonServer
